import Mathlib

/-!
Shallow embedding of the todo-backend service (FastAPI + in-memory store +
JWT auth), translated from:
  app/core/config.py, app/auth/jwt.py, app/auth/dependencies.py,
  app/models/todo.py, app/api/routes.py
Time is modelled as integer seconds; JWT signing is modelled abstractly as a
record carrying the claims, the signing key and the algorithm name, with
verification checking key and algorithm equality; the expiry check mirrors
python-jose's validation, which rejects a token iff exp < now (zero leeway).
-/

namespace TodoBackend

/-! ### Settings (app/core/config.py, default values) -/

def SECRET_KEY : String := "your-secret-key-change-in-production-environment-variable"

def ALGORITHM : String := "HS256"

def ACCESS_TOKEN_EXPIRE_MINUTES : Int := 30

/-! ### JWT layer (app/auth/jwt.py) -/

/-- The claims dictionary carried by a token: an optional "sub" and an
optional "exp" (seconds since epoch). -/
structure Claims where
  sub : Option String
  exp : Option Int
deriving DecidableEq, Repr

/-- A signed token: the claims plus the key and algorithm used to sign. -/
structure JwtToken where
  claims : Claims
  key : String
  alg : String
deriving DecidableEq, Repr

/-- jose `jwt.encode(claims, key, algorithm)`. -/
def jwtEncode (claims : Claims) (key alg : String) : JwtToken :=
  { claims := claims, key := key, alg := alg }

/-- jose `jwt.decode(token, key, algorithms)` at wall-clock instant `now`:
fails (raises JWTError, modelled as `none`) when the signature does not
verify (wrong key or algorithm) or when the exp claim is present and
`exp < now` (python-jose `_validate_exp` with zero leeway). -/
def joseDecode (now : Int) (token : JwtToken) (key : String)
    (algs : List String) : Option Claims :=
  if token.key = key ∧ token.alg ∈ algs then
    match token.claims.exp with
    | some e => if e < now then none else some token.claims
    | none => some token.claims
  else
    none

/-- `TokenPayload` pydantic model: `sub : str`, `exp : datetime`. -/
structure TokenPayload where
  sub : String
  exp : Int
deriving DecidableEq, Repr

/-- `create_access_token(data, expires_delta)`: `data` is the claims
dictionary to encode (here: its optional "sub" entry); the "exp" claim is
set to `now + expires_delta`, or `now + ACCESS_TOKEN_EXPIRE_MINUTES`
minutes when no delta is given. -/
def create_access_token (now : Int) (data_sub : Option String)
    (expires_delta : Option Int) : JwtToken :=
  let expire : Int :=
    match expires_delta with
    | some d => now + d
    | none => now + ACCESS_TOKEN_EXPIRE_MINUTES * 60
  jwtEncode { sub := data_sub, exp := some expire } SECRET_KEY ALGORITHM

/-- `decode_token(token)`: jose decode with the configured key and
algorithm list, then reject a missing "sub" claim and a missing "exp"
claim; any failure yields `none`. -/
def decode_token (now : Int) (token : JwtToken) : Option TokenPayload :=
  match joseDecode now token SECRET_KEY [ALGORITHM] with
  | none => none
  | some payload =>
    match payload.sub with
    | none => none
    | some username =>
      match payload.exp with
      | none => none
      | some e => some { sub := username, exp := e }

/-! ### Authentication gate (app/auth/dependencies.py) -/

/-- Result of `get_current_user`: the authenticated username, or an HTTP
401 rejection with the given detail text. -/
inductive AuthResult where
  | ok (username : String)
  | unauthorized (detail : String)
deriving DecidableEq, Repr

/-- `get_current_user`: decode the bearer token; `none` is rejected with
"Invalid or expired token"; then `username = token_data.sub` is checked
against None (`token_data.sub` is a pydantic `str`, so the value is wrapped
in `some` here exactly as the source reads a non-nullable field). -/
def get_current_user (now : Int) (token : JwtToken) : AuthResult :=
  match decode_token now token with
  | none => .unauthorized "Invalid or expired token"
  | some token_data =>
    match some token_data.sub with
    | none => .unauthorized "Could not validate credentials"
    | some username => .ok username

/-! ### Login (app/api/routes.py, DEMO_USERS and login) -/

def DEMO_USERS : List (String × String) :=
  [("admin", "admin123"), ("user", "user123"), ("demo", "demo123")]

/-- Dictionary lookup `DEMO_USERS[username]` (with `username in DEMO_USERS`
as `isSome`). -/
def lookupUser (username : String) : Option String :=
  (DEMO_USERS.find? (fun p => p.1 == username)).map (·.2)

/-- Result of the login route: a token response or an HTTP error. -/
inductive LoginResult where
  | ok (access_token : JwtToken) (token_type : String)
  | httpError (status : Nat) (detail : String)
deriving DecidableEq, Repr

/-- `login(username, password)`: absent username and mismatched password
both yield 401 "Invalid username or password"; on success a token with a
30-minute expiry is issued with `sub = username`. -/
def login (now : Int) (username password : String) : LoginResult :=
  match lookupUser username with
  | none => .httpError 401 "Invalid username or password"
  | some stored_password =>
    if password ≠ stored_password then
      .httpError 401 "Invalid username or password"
    else
      .ok (create_access_token now (some username) (some (30 * 60))) "bearer"

/-! ### Todo data model (app/models/todo.py) -/

/-- Request body `TodoCreate` (title, optional description, completed). -/
structure TodoCreate where
  title : String
  description : Option String
  completed : Bool
deriving DecidableEq, Repr

/-- The pydantic field constraints on `TodoCreate`: title length 1–200,
description length at most 1000 when present (enforced by the schema layer
before a handler runs). -/
def validTodoCreate (t : TodoCreate) : Bool :=
  1 ≤ t.title.length && t.title.length ≤ 200 &&
    (match t.description with
     | none => true
     | some d => d.length ≤ 1000)

/-- Stored `Todo` record. -/
structure Todo where
  id : Nat
  title : String
  description : Option String
  completed : Bool
  created_at : Int
  updated_at : Int
deriving DecidableEq, Repr

/-! ### In-memory store (app/api/routes.py, todos_db / todo_id_counter)

The Python dict is modelled as an insertion-ordered association list with
unique keys: assignment to a present key replaces the value in place,
assignment to an absent key appends, `pop` removes the key. -/

/-- `todos_db[k]`, as an option: the value at the first (and, keys being
unique in a dict, only) occurrence of the key. -/
def dbGet (db : List (Nat × Todo)) (k : Nat) : Option Todo :=
  match db with
  | [] => none
  | p :: rest => if p.1 = k then some p.2 else dbGet rest k

/-- `k in todos_db`. -/
def dbContains (db : List (Nat × Todo)) (k : Nat) : Bool :=
  (dbGet db k).isSome

/-- `todos_db[k] = v`: replace in place when the key is present, append
otherwise. -/
def dbSet (db : List (Nat × Todo)) (k : Nat) (v : Todo) : List (Nat × Todo) :=
  match db with
  | [] => [(k, v)]
  | p :: rest => if p.1 = k then (k, v) :: rest else p :: dbSet rest k v

/-- `todos_db.pop(k)`: remove the entry with key `k` (a dict holds at most
one entry per key). -/
def dbPop (db : List (Nat × Todo)) (k : Nat) : List (Nat × Todo) :=
  match db with
  | [] => []
  | p :: rest => if p.1 = k then dbPop rest k else p :: dbPop rest k

/-- The module-level mutable state of routes.py: the dict and the counter. -/
structure AppState where
  todos_db : List (Nat × Todo)
  todo_id_counter : Nat
deriving DecidableEq, Repr

/-- The state at process start: empty dict, counter 1. -/
def initialState : AppState := { todos_db := [], todo_id_counter := 1 }

/-! ### Kafka event messages (dict literals built in the handlers) -/

/-- JSON-like values appearing in the published messages; `jtime t` stands
for the ISO-8601 serialization `t.isoformat()` of the timestamp `t`. -/
inductive JVal where
  | jnull
  | jint (n : Int)
  | jstr (s : String)
  | jbool (b : Bool)
  | jtime (t : Int)
deriving DecidableEq, Repr

/-- A nullable description field serialized into a message. -/
def jdesc : Option String → JVal
  | none => .jnull
  | some s => .jstr s

/-- A published message: the dict literal, in key order. -/
abbrev KafkaMessage := List (String × JVal)

/-- The "todo_created" message built in `create_todo`. -/
def todoCreatedMessage (t : Todo) (current_user : String) : KafkaMessage :=
  [("id", .jint t.id), ("title", .jstr t.title),
   ("description", jdesc t.description), ("completed", .jbool t.completed),
   ("created_at", .jtime t.created_at), ("created_by", .jstr current_user),
   ("event", .jstr "todo_created")]

/-- The "todo_updated" message built in `update_todo`. -/
def todoUpdatedMessage (t : Todo) (current_user : String) : KafkaMessage :=
  [("id", .jint t.id), ("title", .jstr t.title),
   ("description", jdesc t.description), ("completed", .jbool t.completed),
   ("updated_at", .jtime t.updated_at), ("updated_by", .jstr current_user),
   ("event", .jstr "todo_updated")]

/-- The "todo_deleted" message built in `delete_todo`. -/
def todoDeletedMessage (t : Todo) (current_user : String) : KafkaMessage :=
  [("id", .jint t.id), ("deleted_by", .jstr current_user),
   ("event", .jstr "todo_deleted")]

/-! ### Todo route handlers (app/api/routes.py)

Each handler yields the HTTP response (an `Except` of status/detail versus
payload), the state of the module after the call, and the message handed to
`kafka_service.publish_message`, if any. The surrounding try/except blocks
re-raise `HTTPException` unchanged; no other exception arises in this pure
model, so the 500 conversion paths are dead. -/

/-- Outcome of one handler call. -/
structure HandlerResult (α : Type) where
  response : Except (Nat × String) α
  state : AppState
  msg : Option KafkaMessage

/-- The f-string detail of the three 404 responses. -/
def notFoundDetail (todo_id : Nat) : String :=
  "Todo with ID " ++ toString todo_id ++ " not found"

/-- `create_todo`: assign `new_id = todo_id_counter`, bump the counter,
build the record with `created_at = updated_at = now`, store it, publish
the "todo_created" message, return the record with status 201. -/
def create_todo (now : Int) (current_user : String) (todo : TodoCreate)
    (s : AppState) : HandlerResult Todo :=
  let new_id := s.todo_id_counter
  let new_todo : Todo :=
    { id := new_id, title := todo.title, description := todo.description,
      completed := todo.completed, created_at := now, updated_at := now }
  { response := .ok new_todo,
    state := { todos_db := dbSet s.todos_db new_id new_todo,
               todo_id_counter := s.todo_id_counter + 1 },
    msg := some (todoCreatedMessage new_todo current_user) }

/-- `get_todos`: `list(todos_db.values())`. -/
def get_todos (current_user : String) (s : AppState) : List Todo :=
  s.todos_db.map (·.2)

/-- `get_todo`: 404 when the id is absent, else the stored record. -/
def get_todo (current_user : String) (todo_id : Nat) (s : AppState) :
    HandlerResult Todo :=
  match dbGet s.todos_db todo_id with
  | none =>
    { response := .error (404, notFoundDetail todo_id), state := s, msg := none }
  | some t =>
    { response := .ok t, state := s, msg := none }

/-- `update_todo`: 404 when the id is absent; otherwise overwrite title,
description, completed on the stored record, set `updated_at = now`,
publish the "todo_updated" message, return the updated record. -/
def update_todo (now : Int) (current_user : String) (todo_id : Nat)
    (todo_update : TodoCreate) (s : AppState) : HandlerResult Todo :=
  match dbGet s.todos_db todo_id with
  | none =>
    { response := .error (404, notFoundDetail todo_id), state := s, msg := none }
  | some existing_todo =>
    let updated : Todo :=
      { existing_todo with
        title := todo_update.title, description := todo_update.description,
        completed := todo_update.completed, updated_at := now }
    { response := .ok updated,
      state := { todos_db := dbSet s.todos_db todo_id updated,
                 todo_id_counter := s.todo_id_counter },
      msg := some (todoUpdatedMessage updated current_user) }

/-- `delete_todo`: 404 when the id is absent; otherwise pop the record,
publish the "todo_deleted" message, return no body (status 204). -/
def delete_todo (current_user : String) (todo_id : Nat) (s : AppState) :
    HandlerResult Unit :=
  match dbGet s.todos_db todo_id with
  | none =>
    { response := .error (404, notFoundDetail todo_id), state := s, msg := none }
  | some deleted_todo =>
    { response := .ok (),
      state := { todos_db := dbPop s.todos_db todo_id,
                 todo_id_counter := s.todo_id_counter },
      msg := some (todoDeletedMessage deleted_todo current_user) }

/-! ### Mutation traces over the store -/

/-- One mutating call against the module state. -/
inductive Op where
  | create (now : Int) (user : String) (inp : TodoCreate)
  | update (now : Int) (user : String) (id : Nat) (inp : TodoCreate)
  | delete (user : String) (id : Nat)
deriving DecidableEq, Repr

/-- The state after one call (the response and message are dropped). -/
def step (s : AppState) (op : Op) : AppState :=
  match op with
  | .create now u inp => (create_todo now u inp s).state
  | .update now u id inp => (update_todo now u id inp s).state
  | .delete u id => (delete_todo u id s).state

/-- The state after a sequence of calls. -/
def run (s : AppState) (ops : List Op) : AppState :=
  ops.foldl step s

/-! ### Store invariants and trace accounting -/

/-- Every key of the dict equals the id field of the record it maps to. -/
def KeysMatch (s : AppState) : Prop :=
  ∀ p ∈ s.todos_db, p.2.id = p.1

/-- The counter is strictly greater than every id present in the store. -/
def CounterGt (s : AppState) : Prop :=
  ∀ p ∈ s.todos_db, p.1 < s.todo_id_counter

/-- The dict has pairwise distinct keys (true of every Python dict). -/
def NodupKeys (s : AppState) : Prop :=
  (s.todos_db.map Prod.fst).Nodup

/-- Combined well-formedness of the module state. -/
def Wf (s : AppState) : Prop :=
  KeysMatch s ∧ CounterGt s ∧ NodupKeys s

def isCreate : Op → Bool
  | .create _ _ _ => true
  | _ => false

def isUpdate : Op → Bool
  | .update _ _ _ _ => true
  | _ => false

def isDelete : Op → Bool
  | .delete _ _ => true
  | _ => false

/-- Number of Create calls in a trace. -/
def numCreates (ops : List Op) : Nat :=
  (ops.filter isCreate).length

/-- Number of Delete calls in a trace. -/
def numDeletes (ops : List Op) : Nat :=
  (ops.filter isDelete).length

/-- The trace contains no Update call. -/
def noUpdates (ops : List Op) : Bool :=
  ops.all (fun op => !(isUpdate op))

/-- Every Delete in the trace succeeds: its id is present in the store at
the moment the call runs. -/
def deletesOk (s : AppState) : List Op → Bool
  | [] => true
  | op :: rest =>
    (match op with
     | .delete _ id => dbContains s.todos_db id
     | _ => true) && deletesOk (step s op) rest

/-- The ids assigned by the Create calls of a trace, in order. -/
def createdIds (s : AppState) : List Op → List Nat
  | [] => []
  | op :: rest =>
    (match op with
     | .create _ _ _ => [s.todo_id_counter]
     | _ => []) ++ createdIds (step s op) rest

/-- The ids targeted by the Delete calls of a trace, in order. -/
def deletedIds : List Op → List Nat
  | [] => []
  | op :: rest =>
    (match op with
     | .delete _ id => [id]
     | _ => []) ++ deletedIds rest

/-! ### Lemmas about the store primitives -/

theorem dbGet_dbSet_self (db : List (Nat × Todo)) (k : Nat) (v : Todo) :
    dbGet (dbSet db k v) k = some v := by
  induction db with
  | nil => simp [dbSet, dbGet]
  | cons p rest ih =>
    by_cases h : p.1 = k
    · simp [dbSet, dbGet, h]
    · simp [dbSet, dbGet, h, ih]

theorem dbGet_dbSet_ne (db : List (Nat × Todo)) (k j : Nat) (v : Todo)
    (hne : j ≠ k) : dbGet (dbSet db k v) j = dbGet db j := by
  induction db with
  | nil => simp [dbSet, dbGet, Ne.symm hne]
  | cons p rest ih =>
    by_cases h : p.1 = k
    · simp [dbSet, dbGet, h, Ne.symm hne]
    · simp [dbSet, dbGet, h, ih]

theorem dbGet_dbPop_self (db : List (Nat × Todo)) (k : Nat) :
    dbGet (dbPop db k) k = none := by
  induction db with
  | nil => simp [dbPop, dbGet]
  | cons p rest ih =>
    by_cases h : p.1 = k
    · simp [dbPop, h, ih]
    · simp [dbPop, dbGet, h, ih]

theorem dbGet_dbPop_ne (db : List (Nat × Todo)) (k j : Nat) (hne : j ≠ k) :
    dbGet (dbPop db k) j = dbGet db j := by
  induction db with
  | nil => simp [dbPop]
  | cons p rest ih =>
    by_cases h : p.1 = k
    · simp [dbPop, dbGet, h, Ne.symm hne, ih]
    · simp [dbPop, dbGet, h, ih]

theorem dbGet_eq_none_of_keys_lt (db : List (Nat × Todo)) (c : Nat)
    (h : ∀ p ∈ db, p.1 < c) : dbGet db c = none := by
  induction db with
  | nil => rfl
  | cons p rest ih =>
    have h1 : p.1 ≠ c := Nat.ne_of_lt (h p (by simp))
    simp only [dbGet, h1, if_false]
    exact ih (fun q hq => h q (by simp [hq]))

theorem dbSet_of_not_contains (db : List (Nat × Todo)) (k : Nat) (v : Todo)
    (h : dbContains db k = false) : dbSet db k v = db ++ [(k, v)] := by
  induction db with
  | nil => simp [dbSet]
  | cons p rest ih =>
    by_cases hp : p.1 = k
    · simp [dbContains, dbGet, hp] at h
    · have h' : dbContains rest k = false := by
        simpa [dbContains, dbGet, hp] using h
      simp [dbSet, hp, ih h']

theorem mem_dbSet (db : List (Nat × Todo)) (k : Nat) (v : Todo)
    (q : Nat × Todo) (hq : q ∈ dbSet db k v) : q = (k, v) ∨ q ∈ db := by
  induction db with
  | nil => exact Or.inl (by simpa [dbSet] using hq)
  | cons p rest ih =>
    by_cases hp : p.1 = k
    · simp [dbSet, hp] at hq
      rcases hq with hq | hq
      · exact Or.inl (by simp [hq])
      · exact Or.inr (by simp [hq])
    · simp [dbSet, hp] at hq
      rcases hq with hq | hq
      · exact Or.inr (by simp [hq])
      · rcases ih hq with h | h
        · exact Or.inl h
        · exact Or.inr (by simp [h])

theorem mem_dbPop (db : List (Nat × Todo)) (k : Nat) (q : Nat × Todo)
    (hq : q ∈ dbPop db k) : q ∈ db := by
  induction db with
  | nil => simpa [dbPop] using hq
  | cons p rest ih =>
    by_cases hp : p.1 = k
    · simp [dbPop, hp] at hq
      exact List.mem_cons_of_mem p (ih hq)
    · simp [dbPop, hp] at hq
      rcases hq with hq | hq
      · simp [hq]
      · exact List.mem_cons_of_mem p (ih hq)

theorem dbGet_mem (db : List (Nat × Todo)) (k : Nat) (t : Todo)
    (h : dbGet db k = some t) : (k, t) ∈ db := by
  induction db with
  | nil => simp [dbGet] at h
  | cons p rest ih =>
    by_cases hp : p.1 = k
    · simp [dbGet, hp] at h
      have : p = (k, t) := by
        cases p with
        | mk a b => simp_all
      simp [this]
    · simp [dbGet, hp] at h
      exact List.mem_cons_of_mem p (ih h)

theorem dbKeys_dbSet_of_contains (db : List (Nat × Todo)) (k : Nat) (v : Todo)
    (h : dbContains db k = true) :
    (dbSet db k v).map Prod.fst = db.map Prod.fst := by
  induction db with
  | nil => simp [dbContains, dbGet] at h
  | cons p rest ih =>
    by_cases hp : p.1 = k
    · simp [dbSet, hp]
    · have h' : dbContains rest k = true := by
        simpa [dbContains, dbGet, hp] using h
      simp [dbSet, hp, ih h']

theorem mem_dbKeys_dbPop (db : List (Nat × Todo)) (k a : Nat) :
    a ∈ (dbPop db k).map Prod.fst ↔ a ∈ db.map Prod.fst ∧ a ≠ k := by
  induction db with
  | nil => simp [dbPop]
  | cons p rest ih =>
    by_cases hp : p.1 = k
    · simp only [dbPop, hp, if_true, List.map_cons, List.mem_cons, ih]
      constructor
      · rintro ⟨h1, h2⟩
        exact ⟨Or.inr h1, h2⟩
      · rintro ⟨h1 | h1, h2⟩
        · exact absurd (hp ▸ h1) h2
        · exact ⟨h1, h2⟩
    · simp only [dbPop, hp, if_false, List.map_cons, List.mem_cons, ih]
      constructor
      · rintro (h1 | ⟨h1, h2⟩)
        · exact ⟨Or.inl h1, h1 ▸ hp⟩
        · exact ⟨Or.inr h1, h2⟩
      · rintro ⟨h1 | h1, h2⟩
        · exact Or.inl h1
        · exact Or.inr ⟨h1, h2⟩

theorem dbPop_sublist (db : List (Nat × Todo)) (k : Nat) :
    List.Sublist (dbPop db k) db := by
  induction db with
  | nil => simp [dbPop]
  | cons p rest ih =>
    by_cases hp : p.1 = k
    · simpa [dbPop, hp] using List.Sublist.cons p ih
    · simpa [dbPop, hp] using List.Sublist.cons₂ p ih

theorem dbPop_eq_self_of_not_contains (db : List (Nat × Todo)) (k : Nat)
    (h : dbContains db k = false) : dbPop db k = db := by
  induction db with
  | nil => rfl
  | cons p rest ih =>
    by_cases hp : p.1 = k
    · simp [dbContains, dbGet, hp] at h
    · have h' : dbContains rest k = false := by
        simpa [dbContains, dbGet, hp] using h
      simp [dbPop, hp, ih h']

theorem dbPop_length (db : List (Nat × Todo)) (k : Nat)
    (hnd : (db.map Prod.fst).Nodup) (hc : dbContains db k = true) :
    (dbPop db k).length + 1 = db.length := by
  induction db with
  | nil => simp [dbContains, dbGet] at hc
  | cons p rest ih =>
    simp only [List.map_cons, List.nodup_cons] at hnd
    by_cases hp : p.1 = k
    · have hrest : dbContains rest k = false := by
        cases hcr : dbContains rest k with
        | false => rfl
        | true =>
          exfalso
          have : dbGet rest k ≠ none := by
            simpa [dbContains, Option.isSome_iff_ne_none] using hcr
          cases hg : dbGet rest k with
          | none => exact this hg
          | some t =>
            have := dbGet_mem rest k t hg
            exact hnd.1 (hp ▸ List.mem_map_of_mem Prod.fst this)
      simp [dbPop, hp, dbPop_eq_self_of_not_contains rest k hrest]
    · have h' : dbContains rest k = true := by
        simpa [dbContains, dbGet, hp] using hc
      have hrec := ih hnd.2 h'
      simp only [dbPop, hp, if_false, List.length_cons]
      omega

/-! ### Invariant preservation -/

theorem wf_initialState : Wf initialState := by
  refine ⟨?_, ?_, ?_⟩ <;> simp [KeysMatch, CounterGt, NodupKeys, initialState]

theorem counter_not_contains (s : AppState) (hcg : CounterGt s) :
    dbContains s.todos_db s.todo_id_counter = false := by
  simp [dbContains, dbGet_eq_none_of_keys_lt s.todos_db s.todo_id_counter hcg]

theorem wf_step (s : AppState) (op : Op) (h : Wf s) : Wf (step s op) := by
  obtain ⟨hkm, hcg, hnd⟩ := h
  cases op with
  | create now u inp =>
    have hnc := counter_not_contains s hcg
    have hset := dbSet_of_not_contains s.todos_db s.todo_id_counter
      { id := s.todo_id_counter, title := inp.title,
        description := inp.description, completed := inp.completed,
        created_at := now, updated_at := now } hnc
    refine ⟨?_, ?_, ?_⟩
    · intro p hp
      simp only [step, create_todo, hset] at hp
      rcases List.mem_append.mp hp with hp | hp
      · exact hkm p hp
      · simp at hp
        simp [hp]
    · intro p hp
      simp only [step, create_todo, hset] at hp
      simp only [step, create_todo]
      rcases List.mem_append.mp hp with hp | hp
      · exact Nat.lt_succ_of_lt (hcg p hp)
      · simp at hp
        simp [hp]
    · simp only [NodupKeys, step, create_todo, hset, List.map_append,
        List.map_cons, List.map_nil]
      rw [List.nodup_append]
      refine ⟨hnd, List.nodup_singleton _, ?_⟩
      intro a ha hb
      simp at hb
      rcases List.mem_map.mp ha with ⟨p, hp, hpa⟩
      have := hcg p hp
      omega
  | update now u id inp =>
    cases hget : dbGet s.todos_db id with
    | none => exact ⟨by simp [step, update_todo, hget]; exact hkm,
        by simp [step, update_todo, hget]; exact hcg,
        by simp [NodupKeys, step, update_todo, hget]; exact hnd⟩
    | some existing =>
      have hmem := dbGet_mem s.todos_db id existing hget
      have hcont : dbContains s.todos_db id = true := by
        simp [dbContains, hget]
      refine ⟨?_, ?_, ?_⟩
      · intro p hp
        simp only [step, update_todo, hget] at hp
        rcases mem_dbSet _ _ _ p hp with hp | hp
        · have := hkm (id, existing) hmem
          simp [hp]
          simpa using this
        · exact hkm p hp
      · intro p hp
        simp only [step, update_todo, hget] at hp
        simp only [step, update_todo, hget]
        rcases mem_dbSet _ _ _ p hp with hp | hp
        · have := hcg (id, existing) hmem
          simp [hp]
          simpa using this
        · exact hcg p hp
      · simp only [NodupKeys, step, update_todo, hget,
          dbKeys_dbSet_of_contains _ _ _ hcont]
        exact hnd
  | delete u id =>
    cases hget : dbGet s.todos_db id with
    | none => exact ⟨by simp [step, delete_todo, hget]; exact hkm,
        by simp [step, delete_todo, hget]; exact hcg,
        by simp [NodupKeys, step, delete_todo, hget]; exact hnd⟩
    | some deleted =>
      refine ⟨?_, ?_, ?_⟩
      · intro p hp
        simp only [step, delete_todo, hget] at hp
        exact hkm p (mem_dbPop _ _ p hp)
      · intro p hp
        simp only [step, delete_todo, hget] at hp
        simp only [step, delete_todo, hget]
        exact hcg p (mem_dbPop _ _ p hp)
      · simp only [NodupKeys, step, delete_todo, hget]
        exact List.Nodup.sublist (List.Sublist.map Prod.fst (dbPop_sublist _ _)) hnd

theorem run_cons (s : AppState) (op : Op) (ops : List Op) :
    run s (op :: ops) = run (step s op) ops := rfl

theorem wf_run (ops : List Op) (s : AppState) (h : Wf s) : Wf (run s ops) := by
  induction ops generalizing s with
  | nil => exact h
  | cons op rest ih => exact ih (step s op) (wf_step s op h)

/-! ### Token lemmas -/

theorem decode_create_access_token (t0 T t : Int) (sub : String)
    (h : t ≤ t0 + T) :
    decode_token t (create_access_token t0 (some sub) (some T)) =
      some { sub := sub, exp := t0 + T } := by
  have hnlt : ¬(t0 + T < t) := by omega
  simp [decode_token, create_access_token, jwtEncode, joseDecode, hnlt]

theorem decode_create_access_token_expired (t0 T t : Int) (sub : Option String)
    (h : t0 + T < t) :
    decode_token t (create_access_token t0 sub (some T)) = none := by
  simp [decode_token, create_access_token, jwtEncode, joseDecode, h]

theorem joseDecode_some (now : Int) (token : JwtToken) (key : String)
    (algs : List String) (claims : Claims)
    (h : joseDecode now token key algs = some claims) : claims = token.claims := by
  unfold joseDecode at h
  split at h
  · split at h
    · split at h
      · simp at h
      · exact (Option.some.inj h).symm
    · exact (Option.some.inj h).symm
  · simp at h

theorem lookupUser_mem (u pw : String) (h : lookupUser u = some pw) :
    (u, pw) ∈ DEMO_USERS := by
  unfold lookupUser at h
  cases hf : DEMO_USERS.find? (fun p => p.1 == u) with
  | none => rw [hf] at h; simp at h
  | some q =>
    rw [hf] at h
    simp at h
    have hq := List.mem_of_find?_eq_some hf
    have hpred : q.1 = u := by simpa using List.find?_some hf
    have : q = (u, pw) := by
      cases q with
      | mk a b => simp_all
    exact this ▸ hq

theorem get_todo_absent (u : String) (i : Nat) (s : AppState)
    (h : dbGet s.todos_db i = none) :
    get_todo u i s =
      { response := .error (404, notFoundDetail i), state := s, msg := none } := by
  simp [get_todo, h]

theorem delete_todo_absent (u : String) (i : Nat) (s : AppState)
    (h : dbGet s.todos_db i = none) :
    delete_todo u i s =
      { response := .error (404, notFoundDetail i), state := s, msg := none } := by
  simp [delete_todo, h]

/-! ### Claim theorems -/

/-- C1: for every (username, password) pair in the hardcoded DEMO_USERS
table, login succeeds with a bearer token whose decode yields that username
as subject; for every other pair (absent username or mismatched password),
login fails with a 401 whose detail is the single uniform string
"Invalid username or password". -/
theorem login_contract (now : Int) (username password : String) :
    ((username, password) ∈ DEMO_USERS →
      ∃ tok, login now username password = .ok tok "bearer" ∧
        ∃ payload, decode_token now tok = some payload ∧
          payload.sub = username) ∧
    ((username, password) ∉ DEMO_USERS →
      login now username password =
        .httpError 401 "Invalid username or password") := by
  constructor
  · intro hmem
    have hdec : ∀ u : String,
        decode_token now (create_access_token now (some u) (some (30 * 60))) =
          some { sub := u, exp := now + 30 * 60 } :=
      fun u => decode_create_access_token now (30 * 60) now u (by omega)
    simp only [DEMO_USERS, List.mem_cons, List.not_mem_nil, or_false,
      Prod.mk.injEq] at hmem
    rcases hmem with ⟨h1, h2⟩ | ⟨h1, h2⟩ | ⟨h1, h2⟩ <;> subst h1 <;> subst h2 <;>
      exact ⟨_, rfl, _, hdec _, rfl⟩
  · intro hnot
    cases hl : lookupUser username with
    | none => simp [login, hl]
    | some stored =>
      have hm := lookupUser_mem username stored hl
      have hne : password ≠ stored := by
        intro he
        exact hnot (by rw [he]; exact hm)
      simp [login, hl, hne]

/-- C1 witness: a mismatched password for an existing username is rejected
with the uniform 401 detail. -/
theorem login_contract_witness :
    login 0 "admin" "wrongpw" = .httpError 401 "Invalid username or password" :=
  (login_contract 0 "admin" "wrongpw").2 (by decide)

/-- C6 counterexample: a token issued at instant 0 with ttl 60 is still
accepted by decode_token at instant exactly 60 (the claim says the token
is treated as invalid there). -/
theorem decode_at_exact_expiry_is_valid :
    decode_token 60 (create_access_token 0 (some "admin") (some 60)) =
      some { sub := "admin", exp := 60 } := by decide

/-- C6 (amended): a token issued at t0 with ttl T decodes to its subject at
every instant t ≤ t0 + T — including the boundary instant t0 + T itself —
and decodes to the invalid result at every instant strictly after t0 + T
(python-jose rejects iff exp < now, with zero leeway). -/
theorem token_expiry_boundary (t0 T t : Int) (sub : String) :
    (t ≤ t0 + T →
      decode_token t (create_access_token t0 (some sub) (some T)) =
        some { sub := sub, exp := t0 + T }) ∧
    (t0 + T < t →
      decode_token t (create_access_token t0 (some sub) (some T)) = none) :=
  ⟨fun h => decode_create_access_token t0 T t sub h,
   fun h => decode_create_access_token_expired t0 T t (some sub) h⟩

/-- C6 witness: one instant after expiry the token is rejected. -/
theorem token_expiry_boundary_witness :
    decode_token 61 (create_access_token 0 (some "admin") (some 60)) = none :=
  (token_expiry_boundary 0 60 61 "admin").2 (by decide)

/-- C10: whenever decode_token returns a payload, the token's "sub" claim
was present and the payload's sub is exactly that string (never None), so
the authentication gate can never answer the 401 whose detail is
"Could not validate credentials" — its failure response is uniformly the
401 "Invalid or expired token". -/
theorem gate_second_branch_unreachable (now : Int) (token : JwtToken) :
    (∀ payload, decode_token now token = some payload →
      token.claims.sub = some payload.sub) ∧
    get_current_user now token ≠
      AuthResult.unauthorized "Could not validate credentials" := by
  constructor
  · intro payload h
    unfold decode_token at h
    split at h
    · simp at h
    · next claims hj =>
      split at h
      · simp at h
      · next username hs =>
        split at h
        · simp at h
        · next e he =>
          have hc := joseDecode_some now token SECRET_KEY [ALGORITHM] claims hj
          have hp := Option.some.inj h
          rw [hc] at hs
          rw [hs, ← hp]
  · intro hcontra
    unfold get_current_user at hcontra
    cases hd : decode_token now token <;> rw [hd] at hcontra <;> simp at hcontra

/-- C10 witness: for a concrete well-signed token the gate authenticates,
and the decoded payload's subject is the token's "sub" claim. -/
theorem gate_second_branch_unreachable_witness :
    (jwtEncode { sub := some "admin", exp := some 100 } SECRET_KEY
      ALGORITHM).claims.sub = some "admin" :=
  (gate_second_branch_unreachable 0
      (jwtEncode { sub := some "admin", exp := some 100 } SECRET_KEY ALGORITHM)).1
    { sub := "admin", exp := 100 } (by decide)

/-- C2: for every valid todo input and every store state, Create returns a
record whose id is the fresh counter value, whose created_at and updated_at
equal the creation instant and whose title/description/completed equal the
input, and Get on that id in the post-state returns exactly that record. -/
theorem create_then_get_roundtrip (now : Int) (u v : String) (inp : TodoCreate)
    (s : AppState) (hv : validTodoCreate inp = true) :
    ∃ t : Todo,
      (create_todo now u inp s).response = .ok t ∧
      (get_todo v t.id (create_todo now u inp s).state).response = .ok t ∧
      t.id = s.todo_id_counter ∧ t.created_at = now ∧ t.updated_at = now ∧
      t.title = inp.title ∧ t.description = inp.description ∧
      t.completed = inp.completed := by
  refine ⟨{ id := s.todo_id_counter, title := inp.title,
            description := inp.description, completed := inp.completed,
            created_at := now, updated_at := now },
          rfl, ?_, rfl, rfl, rfl, rfl, rfl, rfl⟩
  simp [create_todo, get_todo, dbGet_dbSet_self]

/-- C2 witness. -/
theorem create_then_get_roundtrip_witness :
    ∃ t : Todo,
      (create_todo 5 "admin"
        { title := "Buy milk", description := none, completed := false }
        initialState).response = .ok t ∧
      (get_todo "user" t.id
        (create_todo 5 "admin"
          { title := "Buy milk", description := none, completed := false }
          initialState).state).response = .ok t ∧
      t.id = initialState.todo_id_counter ∧ t.created_at = 5 ∧
      t.updated_at = 5 ∧ t.title = "Buy milk" ∧ t.description = none ∧
      t.completed = false :=
  create_then_get_roundtrip 5 "admin" "user"
    { title := "Buy milk", description := none, completed := false }
    initialState (by decide)

/-- C3: Update on a present id returns a record with the old id and
created_at, the supplied title/description/completed, and updated_at set to
the call instant (which is ≥ the previous updated_at when the clock is
non-decreasing); the updated record is stored under the same id, the
counter is unchanged, and every other id maps to its previous record. -/
theorem update_contract (now : Int) (u : String) (id : Nat) (inp : TodoCreate)
    (s : AppState) (old : Todo) (hold : dbGet s.todos_db id = some old)
    (hclk : old.updated_at ≤ now) :
    ∃ t : Todo,
      (update_todo now u id inp s).response = .ok t ∧
      t.id = old.id ∧ t.created_at = old.created_at ∧
      t.title = inp.title ∧ t.description = inp.description ∧
      t.completed = inp.completed ∧ t.updated_at = now ∧
      old.updated_at ≤ t.updated_at ∧
      dbGet (update_todo now u id inp s).state.todos_db id = some t ∧
      (update_todo now u id inp s).state.todo_id_counter =
        s.todo_id_counter ∧
      ∀ j, j ≠ id →
        dbGet (update_todo now u id inp s).state.todos_db j =
          dbGet s.todos_db j := by
  refine ⟨{ old with
            title := inp.title,
            description := inp.description,
            completed := inp.completed,
            updated_at := now },
          ?_, rfl, rfl, rfl, rfl, rfl, rfl, hclk, ?_, ?_, ?_⟩
  · simp [update_todo, hold]
  · simp [update_todo, hold, dbGet_dbSet_self]
  · simp [update_todo, hold]
  · intro j hj
    simp [update_todo, hold, dbGet_dbSet_ne _ _ _ _ hj]

/-- C3 witness. -/
theorem update_contract_witness :
    ∃ t : Todo,
      (update_todo 7 "admin" 1
        { title := "Buy oat milk", description := none, completed := true }
        { todos_db := [(1, { id := 1, title := "Buy milk", description := none,
                             completed := false, created_at := 5,
                             updated_at := 5 })],
          todo_id_counter := 2 }).response = .ok t ∧
      t.id = 1 ∧ t.created_at = 5 ∧ t.title = "Buy oat milk" ∧
      t.description = none ∧ t.completed = true ∧ t.updated_at = 7 ∧
      (5 : Int) ≤ t.updated_at ∧
      dbGet (update_todo 7 "admin" 1
        { title := "Buy oat milk", description := none, completed := true }
        { todos_db := [(1, { id := 1, title := "Buy milk", description := none,
                             completed := false, created_at := 5,
                             updated_at := 5 })],
          todo_id_counter := 2 }).state.todos_db 1 = some t ∧
      (update_todo 7 "admin" 1
        { title := "Buy oat milk", description := none, completed := true }
        { todos_db := [(1, { id := 1, title := "Buy milk", description := none,
                             completed := false, created_at := 5,
                             updated_at := 5 })],
          todo_id_counter := 2 }).state.todo_id_counter = 2 ∧
      ∀ j, j ≠ 1 →
        dbGet (update_todo 7 "admin" 1
          { title := "Buy oat milk", description := none, completed := true }
          { todos_db := [(1, { id := 1, title := "Buy milk",
                               description := none, completed := false,
                               created_at := 5, updated_at := 5 })],
            todo_id_counter := 2 }).state.todos_db j =
          dbGet [(1, { id := 1, title := "Buy milk", description := none,
                       completed := false, created_at := 5,
                       updated_at := 5 })] j :=
  update_contract 7 "admin" 1
    { title := "Buy oat milk", description := none, completed := true }
    { todos_db := [(1, { id := 1, title := "Buy milk", description := none,
                         completed := false, created_at := 5,
                         updated_at := 5 })],
      todo_id_counter := 2 }
    { id := 1, title := "Buy milk", description := none, completed := false,
      created_at := 5, updated_at := 5 }
    (by decide) (by decide)

/-- C4: Get, Update and Delete on an absent id each answer 404 with the
same detail text and leave the store and the counter untouched; moreover,
after a successful Delete of a present id, a subsequent Get or Delete of
that id answers 404. -/
theorem absent_id_operations (now : Int) (u : String) (id : Nat)
    (inp : TodoCreate) (s : AppState) (habs : dbGet s.todos_db id = none) :
    ((get_todo u id s).response = .error (404, notFoundDetail id) ∧
     (get_todo u id s).state = s ∧
     (update_todo now u id inp s).response = .error (404, notFoundDetail id) ∧
     (update_todo now u id inp s).state = s ∧
     (delete_todo u id s).response = .error (404, notFoundDetail id) ∧
     (delete_todo u id s).state = s) ∧
    (∀ i, dbContains s.todos_db i = true →
      (get_todo u i (delete_todo u i s).state).response =
        .error (404, notFoundDetail i) ∧
      (delete_todo u i (delete_todo u i s).state).response =
        .error (404, notFoundDetail i)) := by
  constructor
  · refine ⟨?_, ?_, ?_, ?_, ?_, ?_⟩ <;>
      simp [get_todo, update_todo, delete_todo, habs]
  · intro i hi
    cases hg : dbGet s.todos_db i with
    | none => simp [dbContains, hg] at hi
    | some t =>
      have hstate : (delete_todo u i s).state.todos_db = dbPop s.todos_db i := by
        simp [delete_todo, hg]
      have h2 : dbGet (delete_todo u i s).state.todos_db i = none := by
        rw [hstate]
        exact dbGet_dbPop_self s.todos_db i
      constructor
      · rw [get_todo_absent u i _ h2]
      · rw [delete_todo_absent u i _ h2]

/-- C4 witness. -/
theorem absent_id_operations_witness :
    ((get_todo "admin" 3 initialState).response =
        .error (404, notFoundDetail 3) ∧
     (get_todo "admin" 3 initialState).state = initialState ∧
     (update_todo 9 "admin" 3
        { title := "x", description := none, completed := false }
        initialState).response = .error (404, notFoundDetail 3) ∧
     (update_todo 9 "admin" 3
        { title := "x", description := none, completed := false }
        initialState).state = initialState ∧
     (delete_todo "admin" 3 initialState).response =
        .error (404, notFoundDetail 3) ∧
     (delete_todo "admin" 3 initialState).state = initialState) ∧
    (∀ i, dbContains initialState.todos_db i = true →
      (get_todo "admin" i (delete_todo "admin" i initialState).state).response =
        .error (404, notFoundDetail i) ∧
      (delete_todo "admin" i
          (delete_todo "admin" i initialState).state).response =
        .error (404, notFoundDetail i)) :=
  absent_id_operations 9 "admin" 3
    { title := "x", description := none, completed := false }
    initialState (by decide)

/-- C8 counterexample: for a concrete Create, the published "todo_created"
message holds exactly the keys id, title, description, completed,
created_at, created_by and event — the stored record's updated_at field is
not among them, so the message does not carry the full record. -/
theorem created_event_lacks_updated_at :
    ((create_todo 0 "admin"
        { title := "Buy milk", description := none, completed := false }
        initialState).msg.getD []).map Prod.fst =
      ["id", "title", "description", "completed", "created_at", "created_by",
       "event"] ∧
    "updated_at" ∉
      ((create_todo 0 "admin"
          { title := "Buy milk", description := none, completed := false }
          initialState).msg.getD []).map Prod.fst := by
  constructor <;> decide

/-- C8 (amended): the "todo_created" message carries the created record's
id, title, description, completed and created_at together with the
creator's subject (created_by) and the event tag, but not the record's
updated_at field (which at creation equals created_at). -/
theorem created_event_fields (now : Int) (u : String) (inp : TodoCreate)
    (s : AppState) :
    ∃ t : Todo,
      (create_todo now u inp s).response = .ok t ∧
      t.created_at = now ∧ t.updated_at = now ∧
      (create_todo now u inp s).msg = some
        [("id", .jint t.id), ("title", .jstr t.title),
         ("description", jdesc t.description),
         ("completed", .jbool t.completed),
         ("created_at", .jtime t.created_at), ("created_by", .jstr u),
         ("event", .jstr "todo_created")] ∧
      ((create_todo now u inp s).msg.getD []).lookup "updated_at" = none := by
  exact ⟨{ id := s.todo_id_counter, title := inp.title,
           description := inp.description, completed := inp.completed,
           created_at := now, updated_at := now },
         rfl, rfl, rfl, rfl, rfl⟩

/-- C9: the handlers Get, List, Update and Delete never branch on the
authenticated subject: running any of them as u or as v yields the same
response and the same resulting store state (the subject appears only in
the published event payloads). -/
theorem handlers_subject_blind (now : Int) (u v : String) (id : Nat)
    (inp : TodoCreate) (s : AppState) :
    get_todo u id s = get_todo v id s ∧
    get_todos u s = get_todos v s ∧
    (update_todo now u id inp s).response =
      (update_todo now v id inp s).response ∧
    (update_todo now u id inp s).state = (update_todo now v id inp s).state ∧
    (delete_todo u id s).response = (delete_todo v id s).response ∧
    (delete_todo u id s).state = (delete_todo v id s).state := by
  refine ⟨rfl, rfl, ?_, ?_, ?_, ?_⟩ <;>
    cases h : dbGet s.todos_db id <;> simp [update_todo, delete_todo, h]

/-- C5: in every state reachable from the initial state (empty store,
counter 1) by any sequence of Create, Update and Delete calls, every key of
the store equals the id field of the record it maps to, and the counter is
strictly greater than every id present in the store. -/
theorem store_invariant (ops : List Op) :
    (∀ p ∈ (run initialState ops).todos_db, p.2.id = p.1) ∧
    (∀ p ∈ (run initialState ops).todos_db,
      p.1 < (run initialState ops).todo_id_counter) :=
  ⟨(wf_run ops initialState wf_initialState).1,
   (wf_run ops initialState wf_initialState).2.1⟩

/-- C5 witness: after one Create on the fresh store, the record stored
under key 1 carries id 1. -/
theorem store_invariant_witness :
    ({ id := 1, title := "Buy milk", description := none, completed := false,
       created_at := 5, updated_at := 5 } : Todo).id = 1 :=
  (store_invariant [Op.create 5 "admin"
      { title := "Buy milk", description := none, completed := false }]).1
    (1, { id := 1, title := "Buy milk", description := none,
          completed := false, created_at := 5, updated_at := 5 })
    (by decide)

/-! ### Trace accounting lemmas for Create/Delete sequences -/

theorem counter_step_le (s : AppState) (op : Op) :
    s.todo_id_counter ≤ (step s op).todo_id_counter := by
  cases op with
  | create now u inp =>
    simp only [step, create_todo]
    omega
  | update now u id inp =>
    cases h : dbGet s.todos_db id <;> simp [step, update_todo, h]
  | delete u id =>
    cases h : dbGet s.todos_db id <;> simp [step, delete_todo, h]

theorem createdIds_lower (ops : List Op) (s : AppState) (i : Nat)
    (hi : i ∈ createdIds s ops) : s.todo_id_counter ≤ i := by
  induction ops generalizing s with
  | nil => simp [createdIds] at hi
  | cons op rest ih =>
    simp only [createdIds, List.mem_append] at hi
    rcases hi with hi | hi
    · cases op with
      | create now u inp =>
        simp at hi
        omega
      | update now u id inp => simp at hi
      | delete u id => simp at hi
    · exact le_trans (counter_step_le s op) (ih (step s op) hi)

theorem step_create_db (s : AppState) (now : Int) (u : String)
    (inp : TodoCreate) (hcg : CounterGt s) :
    (step s (.create now u inp)).todos_db =
      s.todos_db ++ [(s.todo_id_counter,
        { id := s.todo_id_counter, title := inp.title,
          description := inp.description, completed := inp.completed,
          created_at := now, updated_at := now })] := by
  simp [step, create_todo,
    dbSet_of_not_contains _ _ _ (counter_not_contains s hcg)]

theorem step_delete_db (s : AppState) (u : String) (id : Nat)
    (hc : dbContains s.todos_db id = true) :
    (step s (.delete u id)).todos_db = dbPop s.todos_db id ∧
    (step s (.delete u id)).todo_id_counter = s.todo_id_counter := by
  cases hg : dbGet s.todos_db id with
  | none => simp [dbContains, hg] at hc
  | some t => simp [step, delete_todo, hg]

theorem run_length (ops : List Op) (s : AppState) (hwf : Wf s)
    (hnu : noUpdates ops = true) (hok : deletesOk s ops = true) :
    (run s ops).todos_db.length + numDeletes ops =
      s.todos_db.length + numCreates ops := by
  induction ops generalizing s with
  | nil => simp [run, numDeletes, numCreates]
  | cons op rest ih =>
    have hwf' := wf_step s op hwf
    rw [run_cons]
    cases op with
    | create now u inp =>
      have hok' : deletesOk (step s (.create now u inp)) rest = true := by
        simpa [deletesOk] using hok
      have hnu' : noUpdates rest = true := by
        have h := hnu
        simp [noUpdates] at h ⊢
        exact h.2
      have hrec := ih (step s (.create now u inp)) hwf' hnu' hok'
      have hlen : (step s (.create now u inp)).todos_db.length =
          s.todos_db.length + 1 := by
        rw [step_create_db s now u inp hwf.2.1]
        simp
      simp [numCreates, numDeletes, List.filter_cons, isCreate,
        isDelete] at hrec ⊢
      omega
    | update now u id inp =>
      exfalso
      simp [noUpdates, isUpdate] at hnu
    | delete u id =>
      have hc : dbContains s.todos_db id = true := by
        have h := hok
        simp [deletesOk] at h
        exact h.1
      have hok' : deletesOk (step s (.delete u id)) rest = true := by
        have h := hok
        simp [deletesOk] at h
        exact h.2
      have hnu' : noUpdates rest = true := by
        have h := hnu
        simp [noUpdates] at h ⊢
        exact h.2
      have hrec := ih (step s (.delete u id)) hwf' hnu' hok'
      have hlen : (step s (.delete u id)).todos_db.length + 1 =
          s.todos_db.length := by
        rw [(step_delete_db s u id hc).1]
        exact dbPop_length s.todos_db id hwf.2.2 hc
      simp [numCreates, numDeletes, List.filter_cons, isCreate,
        isDelete] at hrec ⊢
      omega

theorem run_keys (ops : List Op) (s : AppState) (hwf : Wf s)
    (hnu : noUpdates ops = true) (hok : deletesOk s ops = true) :
    ((run s ops).todos_db.map Prod.fst).toFinset =
      ((s.todos_db.map Prod.fst).toFinset ∪ (createdIds s ops).toFinset) \
        (deletedIds ops).toFinset := by
  induction ops generalizing s with
  | nil => simp [run, createdIds, deletedIds]
  | cons op rest ih =>
    have hwf' := wf_step s op hwf
    rw [run_cons]
    cases op with
    | create now u inp =>
      have hok' : deletesOk (step s (.create now u inp)) rest = true := by
        simpa [deletesOk] using hok
      have hnu' : noUpdates rest = true := by
        have h := hnu
        simp [noUpdates] at h ⊢
        exact h.2
      have hrec := ih (step s (.create now u inp)) hwf' hnu' hok'
      rw [hrec, step_create_db s now u inp hwf.2.1]
      ext a
      simp only [createdIds, deletedIds, List.nil_append, List.map_append,
        List.map_cons, List.map_nil, List.toFinset_append, List.toFinset_cons,
        List.toFinset_nil, Finset.mem_sdiff, Finset.mem_union,
        Finset.mem_insert, Finset.not_mem_empty, List.mem_toFinset,
        List.singleton_append, step]
      tauto
    | update now u id inp =>
      exfalso
      simp [noUpdates, isUpdate] at hnu
    | delete u id =>
      have hc : dbContains s.todos_db id = true := by
        have h := hok
        simp [deletesOk] at h
        exact h.1
      have hok' : deletesOk (step s (.delete u id)) rest = true := by
        have h := hok
        simp [deletesOk] at h
        exact h.2
      have hnu' : noUpdates rest = true := by
        have h := hnu
        simp [noUpdates] at h ⊢
        exact h.2
      have hrec := ih (step s (.delete u id)) hwf' hnu' hok'
      rw [hrec, (step_delete_db s u id hc).1]
      have hid_lt : id < s.todo_id_counter := by
        cases hg : dbGet s.todos_db id with
        | none => simp [dbContains, hg] at hc
        | some t => exact hwf.2.1 (id, t) (dbGet_mem _ _ _ hg)
      ext a
      have hCa : a ∈ createdIds (step s (.delete u id)) rest → ¬(a = id) := by
        intro ha heq
        have hl := createdIds_lower rest (step s (.delete u id)) a ha
        rw [(step_delete_db s u id hc).2] at hl
        omega
      simp only [createdIds, deletedIds, List.nil_append,
        List.singleton_append, List.toFinset_cons, Finset.mem_sdiff,
        Finset.mem_union, Finset.mem_insert, List.mem_toFinset,
        mem_dbKeys_dbPop]
      constructor
      · rintro ⟨h1 | h1, h2⟩
        · exact ⟨Or.inl h1.1, fun h => h.elim h1.2 h2⟩
        · exact ⟨Or.inr h1, fun h => h.elim (hCa h1) h2⟩
      · rintro ⟨h1 | h1, h2⟩
        · exact ⟨Or.inl ⟨h1, fun he => h2 (Or.inl he)⟩,
            fun hm => h2 (Or.inr hm)⟩
        · exact ⟨Or.inr h1, fun hm => h2 (Or.inr hm)⟩

theorem map_id_values (s : AppState) (hkm : KeysMatch s) :
    (s.todos_db.map (·.2)).map Todo.id = s.todos_db.map Prod.fst := by
  rw [List.map_map]
  exact List.map_congr_left (fun p hp => hkm p hp)

/-- C7: starting from the empty store, after a trace of successful Creates
and successful Deletes (each Delete hitting an id present at that moment),
List returns exactly (number of creates) − (number of deletes) records, and
the set of ids of the returned records is the set of created ids minus the
set of deleted ids. -/
theorem list_after_creates_and_deletes (ops : List Op) (u : String)
    (hnu : noUpdates ops = true) (hok : deletesOk initialState ops = true) :
    (get_todos u (run initialState ops)).length =
      numCreates ops - numDeletes ops ∧
    ((get_todos u (run initialState ops)).map Todo.id).toFinset =
      (createdIds initialState ops).toFinset \ (deletedIds ops).toFinset := by
  constructor
  · have hlen := run_length ops initialState wf_initialState hnu hok
    have h0 : initialState.todos_db.length = 0 := rfl
    simp only [get_todos, List.length_map]
    omega
  · have hkeys := run_keys ops initialState wf_initialState hnu hok
    have hkm := (wf_run ops initialState wf_initialState).1
    simp only [get_todos]
    rw [map_id_values _ hkm, hkeys]
    simp [initialState]

/-- C7 witness: two creates then one delete leave one record, with id 2. -/
theorem list_after_creates_and_deletes_witness :
    (get_todos "user" (run initialState
      [Op.create 5 "admin" { title := "a", description := none,
                             completed := false },
       Op.create 6 "admin" { title := "b", description := none,
                             completed := false },
       Op.delete "admin" 1])).length =
      numCreates [Op.create 5 "admin" { title := "a", description := none,
                                        completed := false },
                  Op.create 6 "admin" { title := "b", description := none,
                                        completed := false },
                  Op.delete "admin" 1] -
        numDeletes [Op.create 5 "admin" { title := "a", description := none,
                                          completed := false },
                    Op.create 6 "admin" { title := "b", description := none,
                                          completed := false },
                    Op.delete "admin" 1] ∧
    ((get_todos "user" (run initialState
      [Op.create 5 "admin" { title := "a", description := none,
                             completed := false },
       Op.create 6 "admin" { title := "b", description := none,
                             completed := false },
       Op.delete "admin" 1])).map Todo.id).toFinset =
      (createdIds initialState
        [Op.create 5 "admin" { title := "a", description := none,
                               completed := false },
         Op.create 6 "admin" { title := "b", description := none,
                               completed := false },
         Op.delete "admin" 1]).toFinset \
        (deletedIds
          [Op.create 5 "admin" { title := "a", description := none,
                                 completed := false },
           Op.create 6 "admin" { title := "b", description := none,
                                 completed := false },
           Op.delete "admin" 1]).toFinset :=
  list_after_creates_and_deletes
    [Op.create 5 "admin" { title := "a", description := none,
                           completed := false },
     Op.create 6 "admin" { title := "b", description := none,
                           completed := false },
     Op.delete "admin" 1]
    "user" (by decide) (by decide)

end TodoBackend
